import Mathlib

/-!
Shallow embedding of `src/Plugins/NativeServerPlugin/src/default_main_window.cpp`
(class `DefaultMainWindow` and its nested `VideoRenderer`), covering:

* the video frame pipeline (`VideoRenderer::VideoRenderer`,
  `VideoRenderer::SetSize`, `VideoRenderer::OnFrame`, and the lock
  discipline shared with `OnPaint`);
* the message router (`DefaultMainWindow::WndProc`) with its deferred
  destruction of nested dispatches;
* the notification paths (`PreTranslateMessage`, `OnDefaultAction`,
  `OnMessage` for `WM_CLOSE`);
* the peer-list rebuild (`SwitchToPeerList`, `AddListBoxItem`);
* the service removal routine (`RemoveService`).

Machine `int`s are modelled as `Int` (frame dimensions and sizes stay far
below 2^31 in this program, so wraparound is not modelled).
-/

namespace DefaultMainWindow

/-- `webrtc::VideoRotation`: the rotation a frame declares, one of
0, 90, 180 or 270 degrees. -/
inductive VideoRot where
  | rot0
  | rot90
  | rot180
  | rot270
deriving DecidableEq, Repr

/-- A video frame as seen by `VideoRenderer::OnFrame`: its buffer
dimensions and its declared rotation.  Pixel data is abstracted; the
claims under study concern dimensions, sizes and processing order. -/
structure VideoFrame where
  width : Int
  height : Int
  rot : VideoRot
deriving DecidableEq, Repr

/-- `webrtc::I420Buffer::Rotate`: rotating by 90 or 270 degrees swaps the
buffer's width and height; 0 and 180 keep them.  The result is an upright
(rotation-0) buffer. -/
def rotationCorrected (f : VideoFrame) : VideoFrame :=
  match f.rot with
  | .rot0 => f
  | .rot90 => { width := f.height, height := f.width, rot := .rot0 }
  | .rot180 => { width := f.width, height := f.height, rot := .rot0 }
  | .rot270 => { width := f.height, height := f.width, rot := .rot0 }

/-- The mutable state of a `VideoRenderer`: the `BITMAPINFOHEADER` fields
the code reads and writes (`biWidth`, `biHeight`, `biSizeImage`; the code
stores `biHeight` negated, as a top-down DIB), plus the `image_` buffer
modelled by its allocation status and byte length, and an abstract record
of which (rotation-corrected) frame the buffer currently holds the ARGB
conversion of. -/
structure RendererState where
  biWidth : Int
  biHeight : Int
  biSizeImage : Int
  imageAllocated : Bool
  imageLen : Int
  content : Option VideoFrame
deriving DecidableEq, Repr

/-- The `VideoRenderer` constructor: `bmi_` is zeroed then filled with
`biBitCount = 32`, `biWidth = width`, `biHeight = -height` and
`biSizeImage = width * height * (biBitCount >> 3)`; `image_` starts as a
null `unique_ptr` (no allocation).  `StartLocalRenderer` and
`StartRemoteRenderer` construct with `width = 1, height = 1`. -/
def VideoRenderer.init (width height : Int) : RendererState :=
  { biWidth := width
    biHeight := -height
    biSizeImage := width * height * 4
    imageAllocated := false
    imageLen := 0
    content := none }

/-- `VideoRenderer::SetSize`: under the buffer lock, return unchanged when
`width == bmi_.bmiHeader.biWidth && height == bmi_.bmiHeader.biHeight`;
otherwise store `biWidth = width`, `biHeight = -height`,
`biSizeImage = width * height * (biBitCount >> 3)` and replace `image_`
with a fresh allocation of `biSizeImage` bytes.  The returned flag records
whether that allocation happened. -/
def SetSize (s : RendererState) (width height : Int) : RendererState × Bool :=
  if width = s.biWidth ∧ height = s.biHeight then
    (s, false)
  else
    let sz := width * height * 4
    ({ s with
        biWidth := width
        biHeight := -height
        biSizeImage := sz
        imageAllocated := true
        imageLen := sz }, true)

/-- `VideoRenderer::OnFrame`: under the buffer lock, rotation-correct the
frame buffer when `rotation() != kVideoRotation_0`, call `SetSize` with
the (post-rotation) buffer's width and height, then run
`libyuv::I420ToARGB` writing the upright buffer's conversion into
`image_`, and invalidate the window.  Returns the new state and whether
`SetSize` reallocated. -/
def OnFrame (s : RendererState) (f : VideoFrame) : RendererState × Bool :=
  let u := rotationCorrected f
  let r := SetSize s u.width u.height
  ({ r.1 with content := some u }, r.2)

/-- Run a sequence of `OnFrame` calls, keeping only the final state. -/
def runFrames (s : RendererState) (fs : List VideoFrame) : RendererState :=
  fs.foldl (fun t f => (OnFrame t f).1) s

namespace UI

/-- The `UI` enumeration of `DefaultMainWindow`: exactly one of
`CONNECT_TO_SERVER`, `LIST_PEERS`, `STREAMING` is active. -/
inductive UIState where
  | CONNECT_TO_SERVER
  | LIST_PEERS
  | STREAMING
deriving DecidableEq, Repr

/-- A notification delivered to the registered `MainWindowCallback`
observer. -/
inductive Notif where
  | StartLogin (server : String) (port : Int)
  | ConnectToPeer (id : Int)
  | DisconnectFromServer
  | DisconnectFromCurrentPeer
  | Close
  | UIThreadCallback (msgId : Int)
deriving DecidableEq, Repr

/-- One list-box entry: its display string and its item data (the value
set by `LB_SETITEMDATA`). -/
structure LBItem where
  text : String
  data : Int
deriving DecidableEq, Repr

/-- The window state the notification paths read: the current `ui_`
value, whether `callback_` is non-null, the text of the two edit
controls, the list-box contents, and the current list-box selection
(`LB_GETCURSEL`; `none` models `LB_ERR`, no selection). -/
structure Window where
  ui : UIState
  hasCallback : Bool
  edit1 : String
  edit2 : String
  listbox : List LBItem
  sel : Option Nat
deriving DecidableEq, Repr

/-- `AddListBoxItem`: `LB_ADDSTRING` appends the string and
`LB_SETITEMDATA` tags the new entry with `item_data`. -/
def AddListBoxItem (lb : List LBItem) (str : String) (item_data : Int) :
    List LBItem :=
  lb ++ [⟨str, item_data⟩]

/-- `LB_GETITEMDATA` at index `sel`: the stored item data, or `LB_ERR`
(-1) for an out-of-range index. -/
def lbGetItemData (lb : List LBItem) (sel : Nat) : Int :=
  match lb.get? sel with
  | some it => it.data
  | none => -1

/-- C `atoi` on the port edit text, restricted to the well-formed inputs
this model cares about (full numeric strings; `atoi` of anything else
yields 0 here as there). -/
def atoi (s : String) : Int :=
  (s.toInt?).getD 0

/-- `LB_RESETCONTENT`: removes every entry from the list box. -/
def lbResetContent (lb : List LBItem) : List LBItem :=
  match lb with
  | _ => []

/-- The list-box contents produced by `DefaultMainWindow::SwitchToPeerList`:
`LB_RESETCONTENT` clears the box, a header entry with item data -1 is
added, then one entry per peer in iteration order, tagged with the peer's
numeric id.  (The `ui_` update, layout and focus calls do not touch the
list contents; the auto-call branch only changes the selection and posts
a message.) -/
def SwitchToPeerList (lb : List LBItem) (peers : List (Int × String)) :
    List LBItem :=
  let lb0 := lbResetContent lb
  let lb1 := AddListBoxItem lb0 "List of currently connected peers:" (-1)
  peers.foldl (fun acc p => AddListBoxItem acc p.2 p.1) lb1

/-- `DefaultMainWindow::OnDefaultAction`: return immediately when no
callback is registered; in `CONNECT_TO_SERVER` read the two edits and
call `StartLogin`; in `LIST_PEERS` read the current selection's item
data and call `ConnectToPeer` unless it is -1 (the header row) or there
is no selection; otherwise (streaming) show a message box (no
notification).  The result is the list of observer notifications made. -/
def OnDefaultAction (w : Window) : List Notif :=
  if ¬ w.hasCallback then
    []
  else
    match w.ui with
    | .CONNECT_TO_SERVER =>
        [.StartLogin w.edit1
          (if w.edit2.length ≠ 0 then atoi w.edit2 else 0)]
    | .LIST_PEERS =>
        match w.sel with
        | none => []
        | some sel =>
            let peer_id := lbGetItemData w.listbox sel
            if peer_id ≠ -1 ∧ w.hasCallback then
              [.ConnectToPeer peer_id]
            else
              []
    | .STREAMING => []

/-- The messages `PreTranslateMessage` distinguishes: a `WM_CHAR` whose
`wParam` is `VK_TAB`, `VK_RETURN` or `VK_ESCAPE` (or some other key), a
thread message (`hwnd == NULL`) equal to `UI_THREAD_CALLBACK`, or
anything else. -/
inductive PTMsg where
  | charTab
  | charReturn
  | charEscape
  | charOther
  | uiThreadCallback (msgId : Int)
  | other
deriving DecidableEq, Repr

/-- `DefaultMainWindow::PreTranslateMessage`.  Tab runs `HandleTabbing`
(no observer use); return runs `OnDefaultAction`; escape notifies
`DisconnectFromCurrentPeer` or `DisconnectFromServer` only when
`callback_` is non-null; a `UI_THREAD_CALLBACK` thread message calls
`callback_->UIThreadCallback` with no null check — when no observer is
registered that call dereferences a null pointer, modelled as
`Except.error ()`.  On success the result carries the notifications made
and the routine's boolean return. -/
def PreTranslateMessage (w : Window) (m : PTMsg) :
    Except Unit (List Notif × Bool) :=
  match m with
  | .charTab => .ok ([], true)
  | .charReturn => .ok (OnDefaultAction w, true)
  | .charEscape =>
      if w.hasCallback then
        if w.ui = .STREAMING then
          .ok ([.DisconnectFromCurrentPeer], false)
        else
          .ok ([.DisconnectFromServer], false)
      else
        .ok ([], false)
  | .charOther => .ok ([], false)
  | .uiThreadCallback msgId =>
      if w.hasCallback then
        .ok ([.UIThreadCallback msgId], true)
      else
        .error ()
  | .other => .ok ([], false)

/-- The `WM_CLOSE` arm of `DefaultMainWindow::OnMessage`: notify
`Close()` only when `callback_` is non-null. -/
def onMessageClose (w : Window) : List Notif :=
  if w.hasCallback then [.Close] else []

end UI

namespace Router

mutual
/-- A window message together with the messages dispatched recursively
while it is being handled (inside `OnMessage` / `DefWindowProc` a handler
may cause further messages to be delivered before it returns).
`isDestroy` marks `WM_NCDESTROY`. -/
inductive WMsg where
  | mk (isDestroy : Bool) (children : WMsgList)
deriving DecidableEq, Repr
/-- A sequence of recursively dispatched messages. -/
inductive WMsgList where
  | nil
  | cons (m : WMsg) (ms : WMsgList)
deriving DecidableEq, Repr
end

/-- The router state `WndProc` reads and writes: the `destroyed_` flag
and the `nested_msg_` marker, modelled by the nesting depth (the C++
field is a pointer to the message being handled; `NULL` corresponds to
depth 0). -/
structure WndState where
  destroyed : Bool
  nestedDepth : Nat
deriving DecidableEq, Repr

mutual
/-- Whether a message tree contains a destroy message anywhere. -/
def containsDestroy : WMsg → Bool
  | .mk isD ms => isD || containsDestroyList ms
/-- Whether any message in the sequence contains a destroy message. -/
def containsDestroyList : WMsgList → Bool
  | .nil => false
  | .cons m ms => containsDestroy m || containsDestroyList ms
end

mutual
/-- `DefaultMainWindow::WndProc` on a message for a window whose
instance pointer is set: save `nested_msg_` into `prev_nested_msg` and
mark this dispatch (depth + 1); run `OnMessage` (during which the child
messages are dispatched recursively); on `WM_NCDESTROY` set
`destroyed_ = true`; then, if `destroyed_` is set and
`prev_nested_msg == NULL`, call `OnDestroyed`, clear `wnd_` and reset
`destroyed_`; finally restore `nested_msg_`.  The second component
collects, in order, the `prev_nested_msg` depth at each `OnDestroyed`
call (so a recorded 0 is a call made with the router not nested). -/
def WndProc (s : WndState) (m : WMsg) : WndState × List Nat :=
  match m with
  | .mk isD children =>
      let prevDepth := s.nestedDepth
      let s1 : WndState := { s with nestedDepth := prevDepth + 1 }
      let r := dispatchChildren s1 children
      let s2 : WndState :=
        if isD then { r.1 with destroyed := true } else r.1
      let r2 : WndState × List Nat :=
        if s2.destroyed ∧ prevDepth = 0 then
          ({ s2 with destroyed := false }, [prevDepth])
        else
          (s2, [])
      ({ r2.1 with nestedDepth := prevDepth }, r.2 ++ r2.2)
/-- Dispatch a sequence of messages in order, threading the router state
and concatenating the recorded `OnDestroyed` calls. -/
def dispatchChildren (s : WndState) (ms : WMsgList) : WndState × List Nat :=
  match ms with
  | .nil => (s, [])
  | .cons m rest =>
      let r1 := WndProc s m
      let r2 := dispatchChildren r1.1 rest
      (r2.1, r1.2 ++ r2.2)
end

end Router

namespace Service

/-- `SERVICE_STATUS.dwCurrentState` values the removal routine
distinguishes. -/
inductive SvcState where
  | stopPending
  | stopped
  | otherState
deriving DecidableEq, Repr

/-- One `QueryServiceStatus` outcome: success with a reported state, or
failure. -/
inductive QueryResult where
  | ok (st : SvcState)
  | fail
deriving DecidableEq, Repr

/-- The host environment a `RemoveService` run interacts with: whether
`OpenSCManager`, `OpenService`, `ControlService` and `DeleteService`
succeed, and the successive `QueryServiceStatus` results the polling
loop would observe. -/
structure SvcEnv where
  openSCManagerOk : Bool
  openServiceOk : Bool
  controlStopOk : Bool
  queries : List QueryResult
  deleteOk : Bool
deriving DecidableEq, Repr

/-- What a `RemoveService` run did: its boolean return, whether
`DeleteService` was called, whether the stop control was issued, and the
total milliseconds slept. -/
structure RemoveTrace where
  result : Bool
  deleteAttempted : Bool
  stopIssued : Bool
  sleptMs : Nat
deriving DecidableEq, Repr

/-- The poll loop of `RemoveService`: `while (QueryServiceStatus(...))`
— on each successful query whose state is `SERVICE_STOP_PENDING`, print
a dot and `Sleep(1000)`, otherwise break; a failed query also leaves the
loop.  Returns the number of `Sleep(1000)` calls made inside the loop. -/
def pollSleeps : List QueryResult → Nat
  | [] => 0
  | .fail :: _ => 0
  | .ok st :: rest =>
      if st = .stopPending then 1 + pollSleeps rest else 0

/-- `DefaultMainWindow::RemoveService`: open the SC manager, open the
service with `SERVICE_STOP | SERVICE_QUERY_STATUS | DELETE`; if either
open fails, release handles and return false.  If `ControlService`
accepts the stop, `Sleep(1000)` once and then poll `QueryServiceStatus`
with a 1-second sleep while the state is stop-pending (no iteration
cap); the final state only selects a comment.  In every case that
reaches it, call `DeleteService` and return false exactly when that call
fails. -/
def RemoveService (e : SvcEnv) : RemoveTrace :=
  if ¬ e.openSCManagerOk then
    ⟨false, false, false, 0⟩
  else if ¬ e.openServiceOk then
    ⟨false, false, false, 0⟩
  else
    let slept :=
      if e.controlStopOk then 1000 + 1000 * pollSleeps e.queries else 0
    ⟨e.deleteOk, true, e.controlStopOk, slept⟩

end Service

namespace Concurrent

/-- The producer thread's position inside `OnFrame`'s critical section,
carrying the frame being ingested.  `entered`: `buffer_lock_` acquired
(by the `AutoLock` in `OnFrame`; the one in `SetSize` re-enters the same
critical section) and the rotation correction computed; `sized`: the
`bmi_` header fields are updated but `image_` is still the old buffer
(the state between lines of `SetSize` where header and buffer disagree);
`alloced`: `image_` replaced (or the same-size early return taken);
`converted`: `I420ToARGB` has written the pixels. -/
inductive WriterPC where
  | entered (f : VideoFrame)
  | sized (f : VideoFrame)
  | alloced (f : VideoFrame)
  | converted (f : VideoFrame)
deriving DecidableEq, Repr

/-- A configuration of one `VideoRenderer` shared between the producer
thread and the UI (paint) thread: the renderer state, whether the
producer currently holds `buffer_lock_`, the producer's position inside
the critical section, and the frames it has yet to deliver. -/
structure Conf where
  st : RendererState
  lockHeld : Bool
  wpc : Option WriterPC
  pending : List VideoFrame
deriving DecidableEq, Repr

/-- A renderer state whose declared dimensions, declared image size and
actual buffer byte length agree (`biHeight` is stored negated, so the
display height is `-biHeight`). -/
def consistent (s : RendererState) : Prop :=
  s.imageLen = s.biSizeImage ∧
  s.biSizeImage = s.biWidth * (-s.biHeight) * 4

instance (s : RendererState) : Decidable (consistent s) := by
  unfold consistent
  infer_instance

/-- One micro-step of the producer thread running `OnFrame`, at the
granularity of the individual writes to the shared state.  Every write
happens with `buffer_lock_` held; the lock is released only after the
conversion completes. -/
inductive Step : Conf → Conf → Prop where
  | beginFrame (st : RendererState) (f : VideoFrame) (rest : List VideoFrame) :
      Step ⟨st, false, none, f :: rest⟩ ⟨st, true, some (.entered f), rest⟩
  | skipResize (st : RendererState) (f : VideoFrame) (rest : List VideoFrame)
      (hsame : (rotationCorrected f).width = st.biWidth ∧
        (rotationCorrected f).height = st.biHeight) :
      Step ⟨st, true, some (.entered f), rest⟩
        ⟨st, true, some (.alloced f), rest⟩
  | doResize (st : RendererState) (f : VideoFrame) (rest : List VideoFrame)
      (hdiff : ¬((rotationCorrected f).width = st.biWidth ∧
        (rotationCorrected f).height = st.biHeight)) :
      Step ⟨st, true, some (.entered f), rest⟩
        ⟨{ st with
            biWidth := (rotationCorrected f).width
            biHeight := -(rotationCorrected f).height
            biSizeImage :=
              (rotationCorrected f).width * (rotationCorrected f).height * 4 },
          true, some (.sized f), rest⟩
  | doAlloc (st : RendererState) (f : VideoFrame) (rest : List VideoFrame) :
      Step ⟨st, true, some (.sized f), rest⟩
        ⟨{ st with imageAllocated := true, imageLen := st.biSizeImage },
          true, some (.alloced f), rest⟩
  | doConvert (st : RendererState) (f : VideoFrame) (rest : List VideoFrame) :
      Step ⟨st, true, some (.alloced f), rest⟩
        ⟨{ st with content := some (rotationCorrected f) },
          true, some (.converted f), rest⟩
  | endFrame (st : RendererState) (f : VideoFrame) (rest : List VideoFrame) :
      Step ⟨st, true, some (.converted f), rest⟩ ⟨st, false, none, rest⟩

/-- The paint thread's snapshot read in `OnPaint`: it acquires the same
`buffer_lock_` (`AutoLock<VideoRenderer> local_lock`), which it can only
do while the producer does not hold it, and reads `bmi()` and `image()`
without modifying them.  The observation is the renderer state at that
point. -/
def Observes (c : Conf) (out : RendererState) : Prop :=
  c.lockHeld = false ∧ out = c.st

end Concurrent

/-- Invariant maintained by every `OnFrame` sequence started from the
constructor state: the stored `biHeight` (kept negated by the code) is
never positive, and when it is zero the declared image size and the
buffer length are both zero. -/
def heightInv (s : RendererState) : Prop :=
  s.biHeight ≤ 0 ∧ (s.biHeight = 0 → s.biSizeImage = 0 ∧ s.imageLen = 0)

theorem heightInv_init (w h : Int) (hh : 0 < h) :
    heightInv (VideoRenderer.init w h) := by
  constructor
  · simp only [VideoRenderer.init]
    omega
  · intro hz
    simp only [VideoRenderer.init] at hz
    omega

theorem SetSize_same (s : RendererState) (w h : Int)
    (hsame : w = s.biWidth ∧ h = s.biHeight) :
    SetSize s w h = (s, false) := by
  unfold SetSize
  split
  case isTrue hc => rfl
  case isFalse hc => exact absurd hsame hc

theorem SetSize_realloc (s : RendererState) (w h : Int)
    (hdiff : ¬(w = s.biWidth ∧ h = s.biHeight)) :
    SetSize s w h =
      ({ s with
          biWidth := w
          biHeight := -h
          biSizeImage := w * h * 4
          imageAllocated := true
          imageLen := w * h * 4 }, true) := by
  unfold SetSize
  split
  case isTrue hc => exact absurd hc hdiff
  case isFalse hc => rfl

theorem SetSize_heightInv (s : RendererState) (w h : Int) (hs : heightInv s)
    (hh : 0 ≤ h) : heightInv (SetSize s w h).1 := by
  by_cases hc : w = s.biWidth ∧ h = s.biHeight
  · rw [SetSize_same s w h hc]
    exact hs
  · rw [SetSize_realloc s w h hc]
    refine ⟨show -h ≤ 0 by omega, ?_⟩
    intro h0
    have hz : h = 0 := by
      have hneg : -h = 0 := h0
      omega
    subst hz
    exact ⟨show w * 0 * 4 = 0 by ring, show w * 0 * 4 = 0 by ring⟩

theorem SetSize_spec (s : RendererState) (w h : Int) (hs : heightInv s)
    (hh : 0 ≤ h) :
    (SetSize s w h).1.biWidth = w ∧
    (SetSize s w h).1.biHeight = -h ∧
    (SetSize s w h).1.biSizeImage = w * h * 4 ∧
    (SetSize s w h).1.imageLen = w * h * 4 := by
  unfold SetSize
  split
  case isTrue hc =>
    obtain ⟨hw, hhh⟩ := hc
    obtain ⟨hneg, hzero⟩ := hs
    have hz : h = 0 := by omega
    have hbz : s.biHeight = 0 := by omega
    obtain ⟨hsz, hlen⟩ := hzero hbz
    subst hz
    refine ⟨hw.symm, ?_, ?_, ?_⟩
    · show s.biHeight = -0
      omega
    · show s.biSizeImage = w * 0 * 4
      rw [hsz]; ring
    · show s.imageLen = w * 0 * 4
      rw [hlen]; ring
  case isFalse hc =>
    exact ⟨rfl, rfl, rfl, rfl⟩

theorem rotationCorrected_nonneg (f : VideoFrame) (hw : 0 ≤ f.width)
    (hh : 0 ≤ f.height) :
    0 ≤ (rotationCorrected f).width ∧ 0 ≤ (rotationCorrected f).height := by
  unfold rotationCorrected
  cases f.rot <;> exact ⟨by assumption, by assumption⟩

theorem OnFrame_spec (s : RendererState) (f : VideoFrame) (hs : heightInv s)
    (hw : 0 ≤ f.width) (hh : 0 ≤ f.height) :
    (OnFrame s f).1.biWidth = (rotationCorrected f).width ∧
    (OnFrame s f).1.biHeight = -(rotationCorrected f).height ∧
    (OnFrame s f).1.biSizeImage =
      (rotationCorrected f).width * (rotationCorrected f).height * 4 ∧
    (OnFrame s f).1.imageLen =
      (rotationCorrected f).width * (rotationCorrected f).height * 4 ∧
    (OnFrame s f).1.content = some (rotationCorrected f) := by
  obtain ⟨hw2, hh2⟩ := rotationCorrected_nonneg f hw hh
  have hspec :=
    SetSize_spec s (rotationCorrected f).width (rotationCorrected f).height hs hh2
  unfold OnFrame
  exact ⟨hspec.1, hspec.2.1, hspec.2.2.1, hspec.2.2.2, rfl⟩

theorem OnFrame_heightInv (s : RendererState) (f : VideoFrame)
    (hs : heightInv s) (hw : 0 ≤ f.width) (hh : 0 ≤ f.height) :
    heightInv (OnFrame s f).1 := by
  obtain ⟨hw2, hh2⟩ := rotationCorrected_nonneg f hw hh
  have hinv :=
    SetSize_heightInv s (rotationCorrected f).width (rotationCorrected f).height
      hs hh2
  unfold OnFrame
  exact ⟨hinv.1, hinv.2⟩

theorem runFrames_heightInv (fs : List VideoFrame) (s : RendererState)
    (hs : heightInv s) (hall : ∀ g ∈ fs, 0 ≤ g.width ∧ 0 ≤ g.height) :
    heightInv (runFrames s fs) := by
  induction fs generalizing s with
  | nil => exact hs
  | cons f rest ih =>
      have hf := hall f (by simp)
      exact ih ((OnFrame s f).1)
        (OnFrame_heightInv s f hs hf.1 hf.2)
        (fun g hg => hall g (by simp [hg]))

theorem runFrames_append_one (s : RendererState) (fs : List VideoFrame)
    (f : VideoFrame) :
    runFrames s (fs ++ [f]) = (OnFrame (runFrames s fs) f).1 := by
  simp [runFrames, List.foldl_append]

end DefaultMainWindow

namespace DefaultMainWindow

/-- Claim C1: for every sequence of frames delivered to
`VideoRenderer::OnFrame` (rotation already corrected inside the call),
after each call the stored `biSizeImage` and the allocated `image_`
length both equal `width * height * 4` of the most recent frame's
post-rotation dimensions — never a stale size from an earlier frame.
The renderer starts from the constructor state `init 1 1` used by
`StartLocalRenderer` / `StartRemoteRenderer`. -/
theorem c1_buffer_size_matches_latest_frame (fs : List VideoFrame)
    (f : VideoFrame)
    (hall : ∀ g ∈ fs ++ [f], 0 ≤ g.width ∧ 0 ≤ g.height) :
    (runFrames (VideoRenderer.init 1 1) (fs ++ [f])).biSizeImage =
      (rotationCorrected f).width * (rotationCorrected f).height * 4 ∧
    (runFrames (VideoRenderer.init 1 1) (fs ++ [f])).imageLen =
      (rotationCorrected f).width * (rotationCorrected f).height * 4 := by
  have hinv : heightInv (runFrames (VideoRenderer.init 1 1) fs) :=
    runFrames_heightInv fs (VideoRenderer.init 1 1)
      (heightInv_init 1 1 (by norm_num))
      (fun g hg => hall g (by simp [hg]))
  have hf := hall f (by simp)
  have hspec :=
    OnFrame_spec (runFrames (VideoRenderer.init 1 1) fs) f hinv hf.1 hf.2
  rw [runFrames_append_one]
  exact ⟨hspec.2.2.1, hspec.2.2.2.1⟩

/-- Witness for C1 at a concrete input: a single 640x480 unrotated frame. -/
theorem c1_buffer_size_matches_latest_frame_witness :
    (runFrames (VideoRenderer.init 1 1)
        ([] ++ [⟨640, 480, .rot0⟩])).biSizeImage =
      (rotationCorrected ⟨640, 480, .rot0⟩).width *
        (rotationCorrected ⟨640, 480, .rot0⟩).height * 4 ∧
    (runFrames (VideoRenderer.init 1 1)
        ([] ++ [⟨640, 480, .rot0⟩])).imageLen =
      (rotationCorrected ⟨640, 480, .rot0⟩).width *
        (rotationCorrected ⟨640, 480, .rot0⟩).height * 4 :=
  c1_buffer_size_matches_latest_frame [] ⟨640, 480, .rot0⟩ (by decide)

/-- Claim C2 (code bug): the early-return guard of
`VideoRenderer::SetSize` compares the incoming positive `height` against
the stored `biHeight`, which the code keeps negated (`biHeight = -height`),
so the guard never fires for a frame of positive height and the buffer is
reallocated on every frame — including a frame whose post-rotation
dimensions equal the stored ones.  Evaluated here at the failing input:
two consecutive identical 640x480 unrotated frames; both calls report a
fresh allocation, where the claim (and the guard's evident intent)
requires the second not to allocate. -/
theorem c2_reallocates_on_identical_frame :
    (OnFrame (VideoRenderer.init 1 1) ⟨640, 480, .rot0⟩).2 = true ∧
    (OnFrame (OnFrame (VideoRenderer.init 1 1) ⟨640, 480, .rot0⟩).1
      ⟨640, 480, .rot0⟩).2 = true := by
  decide

/-- Claim C3: `VideoRenderer::OnFrame` applies the rotation correction
(`I420Buffer::Rotate`) before the size update and before the color
conversion: the stored buffer holds the conversion of the upright
(rotation-0) corrected frame, and the stored dimensions are the rotated
frame's dimensions. -/
theorem c3_rotation_applied_before_size_and_conversion
    (fs : List VideoFrame) (f : VideoFrame)
    (hall : ∀ g ∈ fs ++ [f], 0 ≤ g.width ∧ 0 ≤ g.height)
    (hrot : f.rot ≠ .rot0) :
    (rotationCorrected f).rot = .rot0 ∧
    (runFrames (VideoRenderer.init 1 1) (fs ++ [f])).content =
      some (rotationCorrected f) ∧
    (runFrames (VideoRenderer.init 1 1) (fs ++ [f])).biWidth =
      (rotationCorrected f).width ∧
    (runFrames (VideoRenderer.init 1 1) (fs ++ [f])).biHeight =
      -(rotationCorrected f).height := by
  have hinv : heightInv (runFrames (VideoRenderer.init 1 1) fs) :=
    runFrames_heightInv fs (VideoRenderer.init 1 1)
      (heightInv_init 1 1 (by norm_num))
      (fun g hg => hall g (by simp [hg]))
  have hf := hall f (by simp)
  have hspec :=
    OnFrame_spec (runFrames (VideoRenderer.init 1 1) fs) f hinv hf.1 hf.2
  rw [runFrames_append_one]
  refine ⟨?_, hspec.2.2.2.2, hspec.1, hspec.2.1⟩
  unfold rotationCorrected
  cases hr : f.rot
  · exact absurd hr hrot
  all_goals rfl

/-- Witness for C3 at the spec's example: a 640x480 unrotated frame
followed by a 480x640 frame declaring 90-degree rotation leaves the
stored dimensions at 640x480 upright. -/
theorem c3_rotation_applied_before_size_and_conversion_witness :
    (rotationCorrected ⟨480, 640, .rot90⟩).rot = .rot0 ∧
    (runFrames (VideoRenderer.init 1 1)
        ([⟨640, 480, .rot0⟩] ++ [⟨480, 640, .rot90⟩])).content =
      some (rotationCorrected ⟨480, 640, .rot90⟩) ∧
    (runFrames (VideoRenderer.init 1 1)
        ([⟨640, 480, .rot0⟩] ++ [⟨480, 640, .rot90⟩])).biWidth =
      (rotationCorrected ⟨480, 640, .rot90⟩).width ∧
    (runFrames (VideoRenderer.init 1 1)
        ([⟨640, 480, .rot0⟩] ++ [⟨480, 640, .rot90⟩])).biHeight =
      -(rotationCorrected ⟨480, 640, .rot90⟩).height :=
  c3_rotation_applied_before_size_and_conversion
    [⟨640, 480, .rot0⟩] ⟨480, 640, .rot90⟩ (by decide) (by decide)

/-- Counterexample to claim C4: `VideoRenderer::OnFrame` contains no
zero-size check.  Delivering a 0x0 frame to a fresh renderer runs
straight through `SetSize`, which updates the stored dimensions to 0x0
and replaces `image_` with a zero-length allocation — the claim says
neither happens. -/
theorem c4_zero_frame_not_rejected :
    (OnFrame (VideoRenderer.init 1 1) ⟨0, 0, .rot0⟩).2 = true ∧
    (OnFrame (VideoRenderer.init 1 1) ⟨0, 0, .rot0⟩).1.imageAllocated
      = true ∧
    (OnFrame (VideoRenderer.init 1 1) ⟨0, 0, .rot0⟩).1.imageLen = 0 ∧
    (OnFrame (VideoRenderer.init 1 1) ⟨0, 0, .rot0⟩).1.biWidth = 0 := by
  decide

/-- Claim C4 as amended: a frame with zero width or height is not
rejected; whenever the `SetSize` guard does not fire, `OnFrame` updates
the stored dimensions to the (post-rotation) zero-sized ones and
performs a zero-length buffer allocation.  The call itself completes
normally. -/
theorem c4_amended_zero_frame_alloc (s : RendererState) (f : VideoFrame)
    (hz : f.width = 0 ∨ f.height = 0)
    (hdiff : ¬((rotationCorrected f).width = s.biWidth ∧
      (rotationCorrected f).height = s.biHeight)) :
    (OnFrame s f).2 = true ∧
    (OnFrame s f).1.imageAllocated = true ∧
    (OnFrame s f).1.imageLen = 0 ∧
    (OnFrame s f).1.biWidth = (rotationCorrected f).width ∧
    (OnFrame s f).1.biHeight = -(rotationCorrected f).height := by
  have hprod : (rotationCorrected f).width * (rotationCorrected f).height = 0 := by
    obtain ⟨fw, fh, fr⟩ := f
    rcases hz with hz | hz <;> simp only [] at hz <;> subst hz <;>
      cases fr <;> simp [rotationCorrected]
  rw [show OnFrame s f =
      ({ (SetSize s (rotationCorrected f).width
            (rotationCorrected f).height).1 with
          content := some (rotationCorrected f) },
        (SetSize s (rotationCorrected f).width
          (rotationCorrected f).height).2) from rfl]
  rw [SetSize_realloc s (rotationCorrected f).width
    (rotationCorrected f).height hdiff]
  refine ⟨rfl, rfl, ?_, rfl, rfl⟩
  show (rotationCorrected f).width * (rotationCorrected f).height * 4 = 0
  rw [hprod]
  ring

/-- Witness for the amended C4 at a concrete input: a 0x0 frame into a
fresh renderer. -/
theorem c4_amended_zero_frame_alloc_witness :
    (OnFrame (VideoRenderer.init 1 1) ⟨0, 0, .rot0⟩).2 = true ∧
    (OnFrame (VideoRenderer.init 1 1) ⟨0, 0, .rot0⟩).1.imageAllocated
      = true ∧
    (OnFrame (VideoRenderer.init 1 1) ⟨0, 0, .rot0⟩).1.imageLen = 0 ∧
    (OnFrame (VideoRenderer.init 1 1) ⟨0, 0, .rot0⟩).1.biWidth =
      (rotationCorrected ⟨0, 0, .rot0⟩).width ∧
    (OnFrame (VideoRenderer.init 1 1) ⟨0, 0, .rot0⟩).1.biHeight =
      -(rotationCorrected ⟨0, 0, .rot0⟩).height :=
  c4_amended_zero_frame_alloc (VideoRenderer.init 1 1) ⟨0, 0, .rot0⟩
    (Or.inl rfl) (by decide)

end DefaultMainWindow

namespace DefaultMainWindow

namespace Router

mutual
theorem WndProc_nested (s : WndState) (m : WMsg) (h : s.nestedDepth ≠ 0) :
    WndProc s m =
      (⟨s.destroyed || containsDestroy m, s.nestedDepth⟩, []) := by
  cases m with
  | mk isD children =>
      obtain ⟨d, n⟩ := s
      simp only [ne_eq] at h
      have hch := dispatchChildren_nested ⟨d, n + 1⟩ children (by simp)
      simp only [WndProc, containsDestroy, hch]
      cases isD <;> cases d <;> simp [h]
theorem dispatchChildren_nested (s : WndState) (ms : WMsgList)
    (h : s.nestedDepth ≠ 0) :
    dispatchChildren s ms =
      (⟨s.destroyed || containsDestroyList ms, s.nestedDepth⟩, []) := by
  cases ms with
  | nil =>
      obtain ⟨d, n⟩ := s
      simp [dispatchChildren, containsDestroyList]
  | cons m rest =>
      obtain ⟨d, n⟩ := s
      have h1 := WndProc_nested ⟨d, n⟩ m h
      have h2 :=
        dispatchChildren_nested ⟨d || containsDestroy m, n⟩ rest h
      simp only [dispatchChildren, containsDestroyList, h1, h2]
      simp [Bool.or_assoc]
end

end Router

/-- Claim C5: starting from a quiescent router (`destroyed_ = false`,
`nested_msg_ = NULL`), dispatching one outermost message tree makes the
`OnDestroyed` notification fire exactly once when a destroy message is
observed anywhere in the (possibly recursively nested) dispatches, and
not at all otherwise; every recorded firing carries `prev_nested_msg`
depth 0, i.e. it happens at the tail of the outermost dispatch, never
inside a nested one (the fire list is the children's fires — always
empty — followed by the outermost check).  The router state is restored
to quiescent afterwards. -/
theorem c5_destroy_deferred_to_outermost (m : Router.WMsg) :
    (Router.WndProc ⟨false, 0⟩ m).2 =
      (if Router.containsDestroy m then [0] else []) ∧
    (Router.WndProc ⟨false, 0⟩ m).1 = ⟨false, 0⟩ := by
  cases m with
  | mk isD children =>
      have hch :=
        Router.dispatchChildren_nested ⟨false, 1⟩ children (by simp)
      simp only [Router.WndProc, Router.containsDestroy, hch]
      cases isD
      · rcases Bool.eq_false_or_eq_true (Router.containsDestroyList children)
          with hcL | hcL <;> simp [hcL]
      · simp

namespace UI

/-- Whether a message is the thread-posted `UI_THREAD_CALLBACK`. -/
def isUiThreadCallbackMsg : PTMsg → Bool
  | .uiThreadCallback _ => true
  | _ => false

end UI

/-- Counterexample to claim C6: the `UI_THREAD_CALLBACK` arm of
`PreTranslateMessage` calls `callback_->UIThreadCallback` with no null
check, so with no observer registered that path dereferences a null
pointer (modelled as `Except.error ()`) instead of being skipped. -/
theorem c6_ui_thread_callback_not_null_guarded :
    UI.PreTranslateMessage ⟨.STREAMING, false, "", "", [], none⟩
      (.uiThreadCallback 0) = .error () := rfl

/-- Claim C6 as amended: with no observer registered, every notification
path except the queued UI-thread callback skips the observer call and
completes without a fatal error — keyboard gestures (tab, return,
escape), the default action, and `WM_CLOSE` all tolerate a null
`callback_`; only the `UI_THREAD_CALLBACK` path requires one. -/
theorem c6_amended_null_observer_tolerated (w : UI.Window) (m : UI.PTMsg)
    (hcb : w.hasCallback = false)
    (hm : UI.isUiThreadCallbackMsg m = false) :
    (∃ ret, UI.PreTranslateMessage w m = .ok ([], ret)) ∧
    UI.OnDefaultAction w = [] ∧
    UI.onMessageClose w = [] := by
  have hda : UI.OnDefaultAction w = [] := by
    unfold UI.OnDefaultAction
    simp [hcb]
  refine ⟨?_, hda, by simp [UI.onMessageClose, hcb]⟩
  cases m with
  | charTab => exact ⟨true, rfl⟩
  | charReturn =>
      refine ⟨true, ?_⟩
      simp [UI.PreTranslateMessage, hda]
  | charEscape =>
      refine ⟨false, ?_⟩
      simp [UI.PreTranslateMessage, hcb]
  | charOther => exact ⟨false, rfl⟩
  | uiThreadCallback i => simp [UI.isUiThreadCallbackMsg] at hm
  | other => exact ⟨false, rfl⟩

/-- Witness for the amended C6: escape pressed while streaming with no
observer registered is skipped, not fatal. -/
theorem c6_amended_null_observer_tolerated_witness :
    (∃ ret, UI.PreTranslateMessage ⟨.STREAMING, false, "a", "1", [], none⟩
        .charEscape = .ok ([], ret)) ∧
    UI.OnDefaultAction ⟨.STREAMING, false, "a", "1", [], none⟩ = [] ∧
    UI.onMessageClose ⟨.STREAMING, false, "a", "1", [], none⟩ = [] :=
  c6_amended_null_observer_tolerated
    ⟨.STREAMING, false, "a", "1", [], none⟩ .charEscape rfl rfl

theorem lbResetContent_eq (lb : List UI.LBItem) :
    UI.lbResetContent lb = [] := rfl

theorem foldl_AddListBoxItem (peers : List (Int × String))
    (acc : List UI.LBItem) :
    peers.foldl (fun a p => UI.AddListBoxItem a p.2 p.1) acc =
      acc ++ peers.map (fun p => ⟨p.2, p.1⟩) := by
  induction peers generalizing acc with
  | nil => simp
  | cons p rest ih =>
      rw [List.foldl_cons, ih]
      simp [UI.AddListBoxItem]

theorem SwitchToPeerList_eq (lb : List UI.LBItem)
    (peers : List (Int × String)) :
    UI.SwitchToPeerList lb peers =
      ⟨"List of currently connected peers:", -1⟩ ::
        peers.map (fun p => ⟨p.2, p.1⟩) := by
  unfold UI.SwitchToPeerList
  rw [lbResetContent_eq, foldl_AddListBoxItem]
  rfl

/-- Claim C8: `SwitchToPeerList` rebuilds the list box from scratch
(`LB_RESETCONTENT` first), so calling it twice with the same peer set
yields the same visible list as calling it once — no duplicated entries
— and the contents are the header followed by one entry per peer in
iteration order, each tagged with its numeric identifier. -/
theorem c8_switch_to_peer_list_idempotent (lb : List UI.LBItem)
    (peers : List (Int × String)) :
    UI.SwitchToPeerList (UI.SwitchToPeerList lb peers) peers =
      UI.SwitchToPeerList lb peers ∧
    UI.SwitchToPeerList lb peers =
      ⟨"List of currently connected peers:", -1⟩ ::
        peers.map (fun p => ⟨p.2, p.1⟩) :=
  ⟨by rw [SwitchToPeerList_eq, SwitchToPeerList_eq],
    SwitchToPeerList_eq lb peers⟩

/-- Claim C10: in the peer-list state the default action never connects
for the header row — a list box built by `SwitchToPeerList` has the
header at index 0 tagged -1, and `OnDefaultAction` only invokes
`ConnectToPeer` when the selected entry's item data differs from -1. -/
theorem c10_header_row_never_connects (w : UI.Window)
    (hui : w.ui = .LIST_PEERS) :
    ((∃ lb peers, w.listbox = UI.SwitchToPeerList lb peers) →
      w.sel = some 0 → UI.OnDefaultAction w = []) ∧
    (∀ pid, UI.Notif.ConnectToPeer pid ∈ UI.OnDefaultAction w →
      ∃ sel, w.sel = some sel ∧
        UI.lbGetItemData w.listbox sel = pid ∧ pid ≠ -1) := by
  constructor
  · rintro ⟨lb, peers, heq⟩ hsel
    rw [SwitchToPeerList_eq] at heq
    have hdata : UI.lbGetItemData w.listbox 0 = -1 := by
      rw [heq]
      rfl
    unfold UI.OnDefaultAction
    split
    · rfl
    · rw [hui]
      simp only [hsel, hdata]
      simp
  · intro pid hmem
    unfold UI.OnDefaultAction at hmem
    split at hmem
    · simp at hmem
    · rw [hui] at hmem
      simp only at hmem
      cases hsel : w.sel with
      | none => rw [hsel] at hmem; simp at hmem
      | some sel =>
          rw [hsel] at hmem
          simp only at hmem
          split at hmem
          case isTrue hc =>
              simp at hmem
              exact ⟨sel, rfl, by rw [hmem], by rw [hmem]; exact hc.1⟩
          case isFalse hc => simp at hmem

/-- Witness for C10: default action with the header row of a freshly
built peer list selected produces no notifications. -/
theorem c10_header_row_never_connects_witness :
    ((∃ lb peers,
        (⟨.LIST_PEERS, true, "", "",
          UI.SwitchToPeerList [] [(7, "p")], some 0⟩ : UI.Window).listbox =
          UI.SwitchToPeerList lb peers) →
      (⟨.LIST_PEERS, true, "", "",
        UI.SwitchToPeerList [] [(7, "p")], some 0⟩ : UI.Window).sel =
          some 0 →
      UI.OnDefaultAction
        ⟨.LIST_PEERS, true, "", "",
          UI.SwitchToPeerList [] [(7, "p")], some 0⟩ = []) ∧
    (∀ pid, UI.Notif.ConnectToPeer pid ∈
        UI.OnDefaultAction
          ⟨.LIST_PEERS, true, "", "",
            UI.SwitchToPeerList [] [(7, "p")], some 0⟩ →
      ∃ sel, (⟨.LIST_PEERS, true, "", "",
          UI.SwitchToPeerList [] [(7, "p")], some 0⟩ : UI.Window).sel =
            some sel ∧
        UI.lbGetItemData
          (⟨.LIST_PEERS, true, "", "",
            UI.SwitchToPeerList [] [(7, "p")], some 0⟩ : UI.Window).listbox
          sel = pid ∧ pid ≠ -1) :=
  c10_header_row_never_connects
    ⟨.LIST_PEERS, true, "", "", UI.SwitchToPeerList [] [(7, "p")], some 0⟩
    rfl

theorem pollSleeps_eq_takeWhile (qs : List Service.QueryResult) :
    Service.pollSleeps qs =
      (qs.takeWhile
        (fun q => q == Service.QueryResult.ok .stopPending)).length := by
  induction qs with
  | nil => rfl
  | cons q rest ih =>
      cases q with
      | fail => rfl
      | ok st =>
          cases st with
          | stopPending =>
              simp only [Service.pollSleeps, List.takeWhile_cons]
              simp [ih, Nat.add_comm]
          | stopped => rfl
          | otherState => rfl

/-- Claim C7: when both service handles open successfully, `RemoveService`
always reaches `DeleteService` (regardless of the stop control's outcome)
and returns false exactly when the delete fails; when the stop control is
accepted it sleeps 1000 ms once and then once more per poll that still
reports stop-pending — i.e. the status is polled at a fixed 1-second
interval until the state is no longer stop-pending, consuming exactly the
maximal stop-pending prefix of the status sequence with no iteration
cap. -/
theorem c7_remove_service_delete_decides (e : Service.SvcEnv)
    (hopen : e.openSCManagerOk = true ∧ e.openServiceOk = true) :
    (Service.RemoveService e).deleteAttempted = true ∧
    ((Service.RemoveService e).result = true ↔ e.deleteOk = true) ∧
    (e.controlStopOk = true →
      (Service.RemoveService e).sleptMs =
        1000 * (1 + Service.pollSleeps e.queries)) ∧
    Service.pollSleeps e.queries =
      (e.queries.takeWhile
        (fun q => q == Service.QueryResult.ok .stopPending)).length := by
  obtain ⟨h1, h2⟩ := hopen
  unfold Service.RemoveService
  simp only [h1, h2]
  refine ⟨by simp, by simp, ?_, pollSleeps_eq_takeWhile e.queries⟩
  intro hstop
  simp [hstop]
  ring

/-- Witness for C7: a service that reports stop-pending twice and then
stopped; both opens succeed and the delete succeeds. -/
theorem c7_remove_service_delete_decides_witness :
    (Service.RemoveService
        ⟨true, true, true,
          [.ok .stopPending, .ok .stopPending, .ok .stopped],
          true⟩).deleteAttempted = true ∧
    ((Service.RemoveService
        ⟨true, true, true,
          [.ok .stopPending, .ok .stopPending, .ok .stopped],
          true⟩).result = true ↔
      (⟨true, true, true,
          [.ok .stopPending, .ok .stopPending, .ok .stopped],
          true⟩ : Service.SvcEnv).deleteOk = true) ∧
    ((⟨true, true, true,
        [.ok .stopPending, .ok .stopPending, .ok .stopped],
        true⟩ : Service.SvcEnv).controlStopOk = true →
      (Service.RemoveService
          ⟨true, true, true,
            [.ok .stopPending, .ok .stopPending, .ok .stopped],
            true⟩).sleptMs =
        1000 * (1 + Service.pollSleeps
          [.ok .stopPending, .ok .stopPending, .ok .stopped])) ∧
    Service.pollSleeps
        [.ok .stopPending, .ok .stopPending, .ok .stopped] =
      (([.ok .stopPending, .ok .stopPending, .ok .stopped] :
          List Service.QueryResult).takeWhile
        (fun q => q == Service.QueryResult.ok .stopPending)).length :=
  c7_remove_service_delete_decides
    ⟨true, true, true,
      [.ok .stopPending, .ok .stopPending, .ok .stopped], true⟩
    ⟨rfl, rfl⟩

namespace Concurrent

/-- The machine invariant for the fine-grained renderer model: whenever
the producer is outside its critical section the state is consistent;
inside it, the lock is held and the intermediate facts needed to restore
consistency at release hold. -/
def ConfInv (c : Conf) : Prop :=
  match c.wpc with
  | none => c.lockHeld = false ∧ consistent c.st
  | some (.entered _) => c.lockHeld = true ∧ consistent c.st
  | some (.sized f) =>
      c.lockHeld = true ∧
      c.st.biWidth = (rotationCorrected f).width ∧
      c.st.biHeight = -(rotationCorrected f).height ∧
      c.st.biSizeImage =
        (rotationCorrected f).width * (rotationCorrected f).height * 4
  | some (.alloced _) => c.lockHeld = true ∧ consistent c.st
  | some (.converted _) => c.lockHeld = true ∧ consistent c.st

theorem Step_preserves_ConfInv (c c2 : Conf) (hstep : Step c c2)
    (hinv : ConfInv c) : ConfInv c2 := by
  cases hstep with
  | beginFrame st f rest => exact ⟨rfl, hinv.2⟩
  | skipResize st f rest hsame => exact ⟨rfl, hinv.2⟩
  | doResize st f rest hdiff => exact ⟨rfl, rfl, rfl, rfl⟩
  | doAlloc st f rest =>
      obtain ⟨hl, hW, hH, hS⟩ := hinv
      refine ⟨rfl, rfl, ?_⟩
      show st.biSizeImage = st.biWidth * -st.biHeight * 4
      rw [hW, hH, hS]
      ring
  | doConvert st f rest => exact ⟨rfl, hinv.2⟩
  | endFrame st f rest => exact ⟨rfl, hinv.2⟩

end Concurrent

/-- Claim C9: in the fine-grained interleaving model of one producer
running `OnFrame` (each shared-state write a separate micro-step, all
performed holding `buffer_lock_`) and the UI thread's paint snapshot
(which acquires the same lock, hence only observes configurations where
the producer is outside its critical section), every observed renderer
state has agreeing declared dimensions, declared image size and buffer
byte length — the paint sees the old fully-consistent buffer or the new
one, never a partial mix.  The initial state is assumed consistent (a
snapshot before any frame has arrived is a precondition violation per
the spec's error taxonomy). -/
theorem c9_snapshot_never_torn (c0 c : Concurrent.Conf)
    (out : RendererState)
    (h0 : c0.lockHeld = false) (h1 : c0.wpc = none)
    (h2 : Concurrent.consistent c0.st)
    (hreach : Relation.ReflTransGen Concurrent.Step c0 c)
    (hobs : Concurrent.Observes c out) :
    Concurrent.consistent out := by
  have hinv : Concurrent.ConfInv c := by
    clear hobs
    induction hreach with
    | refl =>
        obtain ⟨st, lk, wpc, pend⟩ := c0
        simp only at h0 h1 h2
        subst h1
        exact ⟨h0, h2⟩
    | tail hsteps hstep ih =>
        exact Concurrent.Step_preserves_ConfInv _ _ hstep ih
  obtain ⟨hlock, hout⟩ := hobs
  subst hout
  obtain ⟨st, lk, wpc, pend⟩ := c
  simp only at hlock
  subst hlock
  cases wpc with
  | none => exact hinv.2
  | some pc =>
      cases pc <;> exact absurd hinv.1 (by simp)

/-- Witness for C9: the empty schedule from a consistent configuration,
observed immediately. -/
theorem c9_snapshot_never_torn_witness :
    Concurrent.consistent ⟨1, -1, 4, true, 4, none⟩ :=
  c9_snapshot_never_torn
    ⟨⟨1, -1, 4, true, 4, none⟩, false, none, []⟩
    ⟨⟨1, -1, 4, true, 4, none⟩, false, none, []⟩
    ⟨1, -1, 4, true, 4, none⟩
    rfl rfl (by decide) Relation.ReflTransGen.refl ⟨rfl, rfl⟩

/-- Sanity link between the two renderer models: one complete producer
transaction of the fine-grained machine (acquire, resize-or-skip,
reallocate, convert, release) has exactly the effect of the sequential
`OnFrame` on the shared state. -/
theorem microsteps_implement_OnFrame (st : RendererState) (f : VideoFrame)
    (rest : List VideoFrame) :
    Relation.ReflTransGen Concurrent.Step
      ⟨st, false, none, f :: rest⟩
      ⟨(OnFrame st f).1, false, none, rest⟩ := by
  by_cases hc : (rotationCorrected f).width = st.biWidth ∧
      (rotationCorrected f).height = st.biHeight
  · have hfin : (OnFrame st f).1 =
        { st with content := some (rotationCorrected f) } := by
      show ({ (SetSize st (rotationCorrected f).width
          (rotationCorrected f).height).1 with
            content := some (rotationCorrected f) } : RendererState) = _
      rw [SetSize_same st _ _ hc]
    rw [hfin]
    exact .head (.beginFrame st f rest)
      (.head (.skipResize st f rest hc)
        (.head (.doConvert st f rest)
          (.single (.endFrame _ f rest))))
  · have hfin : (OnFrame st f).1 =
        { st with
            biWidth := (rotationCorrected f).width
            biHeight := -(rotationCorrected f).height
            biSizeImage :=
              (rotationCorrected f).width * (rotationCorrected f).height * 4
            imageAllocated := true
            imageLen :=
              (rotationCorrected f).width * (rotationCorrected f).height * 4
            content := some (rotationCorrected f) } := by
      show ({ (SetSize st (rotationCorrected f).width
          (rotationCorrected f).height).1 with
            content := some (rotationCorrected f) } : RendererState) = _
      rw [SetSize_realloc st _ _ hc]
    rw [hfin]
    exact .head (.beginFrame st f rest)
      (.head (.doResize st f rest hc)
        (.head (.doAlloc _ f rest)
          (.head (.doConvert _ f rest)
            (.single (.endFrame _ f rest)))))

end DefaultMainWindow
